import Mathlib

/-
Verification of the synchro visit-counter service (main.go, visits_test.go).

The service exposes three visit endpoints, each incrementing a uint64 counter
with a different synchronization strategy (mutex, atomic add, channel token),
plus a stateless health check.  We embed the handler bodies shallowly:
machine integers are Nat with explicit reduction modulo 2 to the 64, and the
channel and mutex handlers are additionally given small-step op-level models
so that blocking, panic unwinding and interleaving can be stated.

Important wiring fact from main.go lines 17-32: main declares a SINGLE
uint64 variable named visits and passes a pointer to that same variable to
the mutex handler, to the atomic handler, and (through the one-slot channel)
to the channel handler.  The three endpoint handlers therefore share one
counter in the deployed service.
-/

namespace Synchro

/-- 2 to the 64: the modulus of Go uint64 arithmetic. -/
def uint64Mod : Nat := 18446744073709551616

/-- Embeds fmt.Sprintf with the visit template used at main.go lines 56, 65, 75. -/
def visitMessage (count : Nat) : String :=
  "Olá! Você teve " ++ toString count ++ " visitas."

/-- An HTTP response as the handlers produce it: a status code and a body.
A Go handler that only calls io.WriteString replies with status 200. -/
structure Response where
  status : Nat
  body : String
deriving DecidableEq, Repr

/-- Value-level effect of one call of the visitWithMutex handler body
(main.go lines 51-54): under the lock, visits is incremented (uint64, so
modulo 2 to the 64) and current is read back.  Returns the new stored
counter and the value current that the call obtained. -/
def visitWithMutexIncr (visits : Nat) : Nat × Nat :=
  let visits1 := (visits + 1) % uint64Mod
  let current := visits1
  (visits1, current)

/-- Value-level effect of one call of the visitWithAtomic handler body
(main.go line 64): current := atomic.AddUint64(visits, 1). -/
def visitWithAtomicIncr (visits : Nat) : Nat × Nat :=
  let current := (visits + 1) % uint64Mod
  (current, current)

/-- Value-level effect of one call of the visitWithChannel handler body
(main.go lines 73-76): the reference is taken from the channel, the
referenced value incremented, and the message reads the referenced value
back (line 75) before the reference is returned.  Returns the new stored
counter and the value the call read for its message. -/
def visitWithChannelIncr (visits : Nat) : Nat × Nat :=
  let visits1 := (visits + 1) % uint64Mod
  (visits1, visits1)

/-- The full visitWithMutex handler on a counter state: new counter state
and the response written (main.go lines 50-59). -/
def visitWithMutex (visits : Nat) : Nat × Response :=
  let r := visitWithMutexIncr visits
  (r.1, ⟨200, visitMessage r.2⟩)

/-- The full visitWithAtomic handler on a counter state (main.go lines 63-68). -/
def visitWithAtomic (visits : Nat) : Nat × Response :=
  let r := visitWithAtomicIncr visits
  (r.1, ⟨200, visitMessage r.2⟩)

/-- The full visitWithChannel handler on a counter state, per call once the
token is held (main.go lines 72-79). -/
def visitWithChannel (visits : Nat) : Nat × Response :=
  let r := visitWithChannelIncr visits
  (r.1, ⟨200, visitMessage r.2⟩)

/-- The healthCheck handler response (main.go lines 45-47): it only writes
the fixed greeting, so the status is the implicit 200. -/
def healthCheck : Response :=
  ⟨200, "Hello, world!\n"⟩

/-- The state of the deployed service as wired in main (main.go lines 16-32):
one shared uint64 visits used by all three visit handlers, and the one-slot
channel whose token count starts at one (line 21 seeds the reference). -/
structure MainState where
  visits : Nat
  chanTokens : Nat
deriving DecidableEq, Repr

/-- The service state right after main has run lines 17-21, before any
request is served: visits is the uint64 zero value and the channel holds
exactly one token (the reference sent at line 21). -/
def mainInit : MainState := { visits := 0, chanTokens := 1 }

/-- The mutex endpoint acting on the deployed service state: it mutates the
single shared visits (main.go line 30 passes the address of visits). -/
def mainVisitWithMutex (s : MainState) : MainState × Response :=
  let r := visitWithMutexIncr s.visits
  ({ s with visits := r.1 }, ⟨200, visitMessage r.2⟩)

/-- The atomic endpoint acting on the deployed service state: it mutates the
same shared visits (main.go line 31 passes the address of visits). -/
def mainVisitWithAtomic (s : MainState) : MainState × Response :=
  let r := visitWithAtomicIncr s.visits
  ({ s with visits := r.1 }, ⟨200, visitMessage r.2⟩)

/-- The channel endpoint acting on the deployed service state: it blocks
(returns none) unless the channel holds a token; the token it takes and
returns references the same shared visits (main.go lines 19-21, 32). -/
def mainVisitWithChannel (s : MainState) : Option (MainState × Response) :=
  if 1 ≤ s.chanTokens then
    let r := visitWithChannelIncr s.visits
    some ({ s with visits := r.1 }, ⟨200, visitMessage r.2⟩)
  else none

/-- The health-check endpoint on the deployed service state: it reads and
writes no counter state (main.go lines 45-47). -/
def healthCheckHandler (s : MainState) : MainState × Response :=
  (s, healthCheck)

/-- C7: the health-check handler always replies status 200 with the exact
14-byte body ending in a newline, and leaves the service state (hence every
counter) unchanged. -/
theorem health_check_spec (s : MainState) :
    healthCheckHandler s = (s, ⟨200, "Hello, world!\n"⟩) ∧
    ("Hello, world!\n").utf8ByteSize = 14 ∧
    (healthCheckHandler s).1 = s :=
  ⟨rfl, by decide, rfl⟩

/-- Run n sequential calls of an increment step from a counter state,
collecting the values the calls obtained, in call order. -/
def runSeq (incr : Nat → Nat × Nat) : Nat → Nat → Nat × List Nat
  | visits, 0 => (visits, [])
  | visits, n + 1 =>
    let r := incr visits
    let rest := runSeq incr r.1 n
    (rest.1, r.2 :: rest.2)

/-- Run a set of concurrent calls of an increment step, given the order in
which their atomic critical sections serialize (the list holds caller ids in
serialization order).  Each element of the result pairs a caller id with the
value that caller obtained. -/
def runConc (incr : Nat → Nat × Nat) : Nat → List Nat → Nat × List (Nat × Nat)
  | visits, [] => (visits, [])
  | visits, c :: rest =>
    let r := incr visits
    let q := runConc incr r.1 rest
    (q.1, (c, r.2) :: q.2)

theorem uint64Mod_pos : 0 < uint64Mod := by decide

theorem visitWithAtomicIncr_eq : visitWithAtomicIncr = visitWithMutexIncr := rfl

theorem visitWithChannelIncr_eq : visitWithChannelIncr = visitWithMutexIncr := rfl

theorem runSeq_fst (incr : Nat → Nat × Nat) (hincr : incr = visitWithMutexIncr)
    (v n : Nat) (hv : v < uint64Mod) :
    (runSeq incr v n).1 = (v + n) % uint64Mod := by
  subst hincr
  induction n generalizing v with
  | zero => simpa [runSeq] using (Nat.mod_eq_of_lt hv).symm
  | succ n ih =>
    have h1 : (v + 1) % uint64Mod < uint64Mod := Nat.mod_lt _ uint64Mod_pos
    calc (runSeq visitWithMutexIncr v (n + 1)).1
        = (runSeq visitWithMutexIncr ((v + 1) % uint64Mod) n).1 := rfl
      _ = ((v + 1) % uint64Mod + n) % uint64Mod := ih _ h1
      _ = (v + 1 + n) % uint64Mod := Nat.mod_add_mod _ _ _
      _ = (v + (n + 1)) % uint64Mod := by ring_nf

theorem runSeq_snd (incr : Nat → Nat × Nat) (hincr : incr = visitWithMutexIncr)
    (v n : Nat) :
    (runSeq incr v n).2 = (List.range n).map (fun i => (v + i + 1) % uint64Mod) := by
  subst hincr
  induction n generalizing v with
  | zero => rfl
  | succ n ih =>
    have hstep : (runSeq visitWithMutexIncr v (n + 1)).2 =
        (v + 1) % uint64Mod :: (runSeq visitWithMutexIncr ((v + 1) % uint64Mod) n).2 := rfl
    rw [hstep, ih, List.range_succ_eq_map, List.map_cons, List.map_map]
    refine congrArg₂ _ (by simp) ?_
    refine congrArg (fun f => List.map f (List.range n)) ?_
    funext i
    show ((v + 1) % uint64Mod + i + 1) % uint64Mod = (v + (i + 1) + 1) % uint64Mod
    calc ((v + 1) % uint64Mod + i + 1) % uint64Mod
        = ((v + 1) % uint64Mod + (i + 1)) % uint64Mod := by ring_nf
      _ = (v + 1 + (i + 1)) % uint64Mod := Nat.mod_add_mod _ _ _
      _ = (v + (i + 1) + 1) % uint64Mod := by ring_nf

theorem runConc_fst (incr : Nat → Nat × Nat) (v : Nat) (l : List Nat) :
    (runConc incr v l).1 = (runSeq incr v l.length).1 := by
  induction l generalizing v with
  | nil => rfl
  | cons c rest ih => simpa [runConc, runSeq] using ih (incr v).1

theorem runConc_values (incr : Nat → Nat × Nat) (v : Nat) (l : List Nat) :
    (runConc incr v l).2.map Prod.snd = (runSeq incr v l.length).2 := by
  induction l generalizing v with
  | nil => rfl
  | cons c rest ih => simpa [runConc, runSeq] using ih (incr v).1

theorem runSeq_from_zero (incr : Nat → Nat × Nat) (hincr : incr = visitWithMutexIncr)
    (C : Nat) (hC : C < uint64Mod) :
    (runSeq incr 0 C).1 = C ∧
    (runSeq incr 0 C).2 = (List.range C).map (fun i => i + 1) := by
  constructor
  · rw [runSeq_fst incr hincr 0 C uint64Mod_pos, Nat.zero_add, Nat.mod_eq_of_lt hC]
  · rw [runSeq_snd incr hincr 0 C]
    refine List.map_congr_left ?_
    intro i hi
    have hiC : i < C := List.mem_range.mp hi
    have : i + 1 < uint64Mod := lt_of_le_of_lt hiC hC
    simp [Nat.mod_eq_of_lt this]

/-- C1 (amended): for each of the three strategies, for every C below 2 to
the 64, after C sequential increment calls on a freshly constructed counter
the stored value is exactly C and the list of values the calls obtained is
exactly 1, 2, ..., C, so the i-th call returns exactly i.  The bound is
necessary: uint64 arithmetic wraps, so at C equal to 2 to the 64 the stored
value is 0, not C. -/
theorem seq_calls_exact (C : Nat) (hC : C < uint64Mod) :
    ((runSeq visitWithMutexIncr 0 C).1 = C ∧
      (runSeq visitWithMutexIncr 0 C).2 = (List.range C).map (fun i => i + 1)) ∧
    ((runSeq visitWithAtomicIncr 0 C).1 = C ∧
      (runSeq visitWithAtomicIncr 0 C).2 = (List.range C).map (fun i => i + 1)) ∧
    ((runSeq visitWithChannelIncr 0 C).1 = C ∧
      (runSeq visitWithChannelIncr 0 C).2 = (List.range C).map (fun i => i + 1)) :=
  ⟨runSeq_from_zero _ rfl C hC,
   runSeq_from_zero _ visitWithAtomicIncr_eq C hC,
   runSeq_from_zero _ visitWithChannelIncr_eq C hC⟩

/-- C1 witness: the spec scenario with C = 5 sequential mutex calls gives
returns 1, 2, 3, 4, 5 and final stored value 5. -/
theorem seq_calls_exact_at_5 :
    5 < uint64Mod ∧
    (runSeq visitWithMutexIncr 0 5).1 = 5 ∧
    (runSeq visitWithMutexIncr 0 5).2 = [1, 2, 3, 4, 5] :=
  ⟨by decide, (seq_calls_exact 5 (by decide)).1.1,
    by rw [(seq_calls_exact 5 (by decide)).1.2]; decide⟩

/-- C1 counterexample: as stated the claim quantifies over every C, but
after 2 to the 64 sequential calls the stored uint64 value has wrapped to 0
and is not equal to the number of calls. -/
theorem seq_calls_wrap :
    (runSeq visitWithMutexIncr 0 uint64Mod).1 = 0 ∧ (0 : Nat) ≠ uint64Mod := by
  constructor
  · rw [runSeq_fst visitWithMutexIncr rfl 0 uint64Mod uint64Mod_pos, Nat.zero_add,
      Nat.mod_self]
  · decide

theorem runConc_from_zero (incr : Nat → Nat × Nat) (hincr : incr = visitWithMutexIncr)
    (G : Nat) (hG : G < uint64Mod) (order : List Nat) (hlen : order.length = G) :
    (runConc incr 0 order).1 = G ∧
    (runConc incr 0 order).2.map Prod.snd = (List.range G).map (fun i => i + 1) ∧
    ((runConc incr 0 order).2.map Prod.snd).Nodup := by
  have hfst : (runConc incr 0 order).1 = G := by
    rw [runConc_fst, hlen]
    exact (runSeq_from_zero incr hincr G hG).1
  have hsnd : (runConc incr 0 order).2.map Prod.snd =
      (List.range G).map (fun i => i + 1) := by
    rw [runConc_values, hlen]
    exact (runSeq_from_zero incr hincr G hG).2
  refine ⟨hfst, hsnd, ?_⟩
  rw [hsnd]
  exact (List.nodup_range G).map (fun a b h => by omega)

/-- C3: for each strategy, any concurrent execution of G increment calls on
a fresh counter — modelled as an arbitrary serialization order of the G
atomic critical sections, the atomicity being what the mutex, the atomic
add, and the exclusive channel token each provide — ends with the counter
exactly at G, and the values obtained across the calls are exactly
1, 2, ..., G in serialization order: no duplicates and no gaps, for the
tested sizes G = 100 and G = 1000. -/
theorem conc_calls_race_free (G : Nat) (hG : G = 100 ∨ G = 1000)
    (order : List Nat) (hlen : order.length = G) :
    ((runConc visitWithMutexIncr 0 order).1 = G ∧
      (runConc visitWithMutexIncr 0 order).2.map Prod.snd =
        (List.range G).map (fun i => i + 1) ∧
      ((runConc visitWithMutexIncr 0 order).2.map Prod.snd).Nodup) ∧
    ((runConc visitWithAtomicIncr 0 order).1 = G ∧
      (runConc visitWithAtomicIncr 0 order).2.map Prod.snd =
        (List.range G).map (fun i => i + 1) ∧
      ((runConc visitWithAtomicIncr 0 order).2.map Prod.snd).Nodup) ∧
    ((runConc visitWithChannelIncr 0 order).1 = G ∧
      (runConc visitWithChannelIncr 0 order).2.map Prod.snd =
        (List.range G).map (fun i => i + 1) ∧
      ((runConc visitWithChannelIncr 0 order).2.map Prod.snd).Nodup) := by
  have hG64 : G < uint64Mod := by rcases hG with h | h <;> subst h <;> decide
  exact ⟨runConc_from_zero _ rfl G hG64 order hlen,
    runConc_from_zero _ visitWithAtomicIncr_eq G hG64 order hlen,
    runConc_from_zero _ visitWithChannelIncr_eq G hG64 order hlen⟩

/-- C3 witness: a concrete serialization order of 100 concurrent mutex
calls ends at counter value 100 with returned values exactly 1..100. -/
theorem conc_calls_race_free_at_100 :
    ((100 : Nat) = 100 ∨ (100 : Nat) = 1000) ∧
    (List.range 100).length = 100 ∧
    (runConc visitWithMutexIncr 0 (List.range 100)).1 = 100 ∧
    (runConc visitWithMutexIncr 0 (List.range 100)).2.map Prod.snd =
      (List.range 100).map (fun i => i + 1) :=
  ⟨Or.inl rfl, by simp,
    (conc_calls_race_free 100 (Or.inl rfl) (List.range 100) (by simp)).1.1,
    (conc_calls_race_free 100 (Or.inl rfl) (List.range 100) (by simp)).1.2.1⟩

theorem mod_succ_ne (a : Nat) : (a + 1) % uint64Mod ≠ a % uint64Mod := by
  intro h
  have hrw : (a % uint64Mod + 1) % uint64Mod = a % uint64Mod := by
    calc (a % uint64Mod + 1) % uint64Mod
        = (a + 1) % uint64Mod := Nat.mod_add_mod _ _ _
      _ = a % uint64Mod := h
  have hb : a % uint64Mod < uint64Mod := Nat.mod_lt _ uint64Mod_pos
  rcases Nat.lt_or_ge (a % uint64Mod + 1) uint64Mod with hlt | hge
  · rw [Nat.mod_eq_of_lt hlt] at hrw
    omega
  · have heq : a % uint64Mod + 1 = uint64Mod := by omega
    rw [heq, Nat.mod_self] at hrw
    have : uint64Mod = 1 := by omega
    exact absurd this (by decide)

/-- C8 (amended): the counter is a uint64 starting at 0 and every increment
call of every strategy stores exactly the old value plus 1 reduced modulo
2 to the 64; consequently the stored value strictly increases as long as no
wraparound occurs, but at the value 2 to the 64 minus 1 an increment wraps
the counter to 0, so the stored value is not monotone across the wrap. -/
theorem counter_add_one_mod (v : Nat) (hv : v < uint64Mod) :
    mainInit.visits = 0 ∧
    (visitWithMutexIncr v).1 = (v + 1) % uint64Mod ∧
    (visitWithAtomicIncr v).1 = (v + 1) % uint64Mod ∧
    (visitWithChannelIncr v).1 = (v + 1) % uint64Mod ∧
    (v + 1 < uint64Mod → v < (visitWithMutexIncr v).1) ∧
    (v + 1 = uint64Mod → (visitWithMutexIncr v).1 = 0) := by
  refine ⟨rfl, rfl, rfl, rfl, ?_, ?_⟩
  · intro h
    show v < (v + 1) % uint64Mod
    rw [Nat.mod_eq_of_lt h]
    omega
  · intro h
    show (v + 1) % uint64Mod = 0
    rw [h, Nat.mod_self]

/-- C8 witness: at counter value 7 each strategy stores 8, an increase. -/
theorem counter_add_one_mod_at_7 :
    7 < uint64Mod ∧ (visitWithMutexIncr 7).1 = (7 + 1) % uint64Mod ∧
    (7 : Nat) < (visitWithMutexIncr 7).1 :=
  ⟨by decide, (counter_add_one_mod 7 (by decide)).2.1,
    (counter_add_one_mod 7 (by decide)).2.2.2.2.1 (by decide)⟩

/-- C8 counterexample: from the stored value 2 to the 64 minus 1, one
increment stores 0, which is strictly smaller, so the stored value is not
monotonically non-decreasing across a sequence of calls. -/
theorem counter_wrap_decreases :
    (visitWithMutexIncr (uint64Mod - 1)).1 = 0 ∧ (0 : Nat) < uint64Mod - 1 := by
  constructor
  · show (uint64Mod - 1 + 1) % uint64Mod = 0
    have h : uint64Mod - 1 + 1 = uint64Mod := by decide
    rw [h, Nat.mod_self]
  · decide

/-- C9: increment is not idempotent.  For every uint64 counter state v, two
increment calls in succession leave the counter at v + 2 (uint64 arithmetic,
so modulo 2 to the 64) and return v + 1 and v + 2 respectively, and the
state after two calls always differs from the state after one: a retried
increment double-counts.  When v + 2 does not overflow the values are
literally v + 1 and v + 2.  The same holds for all three strategies since
their increment steps coincide. -/
theorem increment_not_idempotent (v : Nat) (hv : v < uint64Mod) :
    ((visitWithMutexIncr (visitWithMutexIncr v).1).1 = (v + 2) % uint64Mod ∧
      (visitWithMutexIncr v).2 = (v + 1) % uint64Mod ∧
      (visitWithMutexIncr (visitWithMutexIncr v).1).2 = (v + 2) % uint64Mod ∧
      (visitWithMutexIncr (visitWithMutexIncr v).1).1 ≠ (visitWithMutexIncr v).1) ∧
    ((visitWithAtomicIncr (visitWithAtomicIncr v).1).1 = (v + 2) % uint64Mod ∧
      (visitWithChannelIncr (visitWithChannelIncr v).1).1 = (v + 2) % uint64Mod) ∧
    (v + 2 < uint64Mod →
      (visitWithMutexIncr (visitWithMutexIncr v).1).1 = v + 2 ∧
      (visitWithMutexIncr v).2 = v + 1 ∧
      (visitWithMutexIncr (visitWithMutexIncr v).1).2 = v + 2) := by
  have hmod : ((v + 1) % uint64Mod + 1) % uint64Mod = (v + 2) % uint64Mod := by
    calc ((v + 1) % uint64Mod + 1) % uint64Mod
        = (v + 1 + 1) % uint64Mod := Nat.mod_add_mod _ _ _
      _ = (v + 2) % uint64Mod := by ring_nf
  have hne : (v + 2) % uint64Mod ≠ (v + 1) % uint64Mod := by
    have h0 := mod_succ_ne (v + 1)
    have h12 : v + 1 + 1 = v + 2 := by omega
    rw [h12] at h0
    exact h0
  refine ⟨⟨hmod, rfl, hmod, ?_⟩, ⟨hmod, hmod⟩, ?_⟩
  · show ((v + 1) % uint64Mod + 1) % uint64Mod ≠ (v + 1) % uint64Mod
    rw [hmod]
    exact hne
  · intro h
    have h1 : v + 1 < uint64Mod := by omega
    refine ⟨?_, ?_, ?_⟩
    · show ((v + 1) % uint64Mod + 1) % uint64Mod = v + 2
      rw [hmod, Nat.mod_eq_of_lt h]
    · show (v + 1) % uint64Mod = v + 1
      exact Nat.mod_eq_of_lt h1
    · show ((v + 1) % uint64Mod + 1) % uint64Mod = v + 2
      rw [hmod, Nat.mod_eq_of_lt h]

/-- C9 witness: from counter state 40 the two calls return 41 and 42 and
the counter ends at 42, not 41. -/
theorem increment_not_idempotent_at_40 :
    40 < uint64Mod ∧
    (visitWithMutexIncr (visitWithMutexIncr 40).1).1 = (40 + 2) % uint64Mod ∧
    (40 : Nat) + 2 < uint64Mod :=
  ⟨by decide, (increment_not_idempotent 40 (by decide)).1.1, by decide⟩

/-- The statements of the visitWithMutex handler body, in source order
(main.go lines 51-58; line 56 and line 58 are merged into one formatting
and writing step since neither touches the lock or the counter). -/
inductive MuOp
  | lock
  | incrVisits
  | readCurrent
  | unlock
  | formatAndWrite
deriving DecidableEq, Repr

/-- State seen by the mutex handler: the lock, the shared counter, the
local current, and the response written so far. -/
structure MuState where
  locked : Bool
  visits : Nat
  current : Option Nat
  response : Option Response
deriving DecidableEq, Repr

/-- One statement of the mutex handler.  Lock on a held lock blocks, which
we model as none (with a single caller it would deadlock). -/
def muOpStep : MuOp → MuState → Option MuState
  | .lock, s => if s.locked then none else some { s with locked := true }
  | .incrVisits, s => some { s with visits := (s.visits + 1) % uint64Mod }
  | .readCurrent, s => some { s with current := some s.visits }
  | .unlock, s => some { s with locked := false }
  | .formatAndWrite, s =>
      some { s with response := s.current.map (fun c => ⟨200, visitMessage c⟩) }

/-- Run a list of mutex-handler statements in order. -/
def muRun : List MuOp → MuState → Option MuState
  | [], s => some s
  | op :: rest, s => (muOpStep op s).bind (muRun rest)

/-- The visitWithMutex handler body as its statement list (main.go 51-58). -/
def visitWithMutexProgram : List MuOp :=
  [.lock, .incrVisits, .readCurrent, .unlock, .formatAndWrite]

/-- The deferred-call stack the visitWithMutex handler body registers: it is
empty, because the unlock at main.go line 54 is a plain statement and the
handler contains no defer.  When a panic unwinds a Go function, only its
deferred calls run. -/
def visitWithMutexDeferred : List MuOp := []

/-- An execution of the mutex handler that panics after its first k
statements: those statements run, then the deferred calls run while the
panic unwinds (the Recoverer middleware then replies 500 on behalf of the
handler). -/
def muPanicAt (k : Nat) (s : MuState) : Option MuState :=
  (muRun (visitWithMutexProgram.take k) s).bind (muRun visitWithMutexDeferred)

/-- C6 (amended): every completed execution of the mutex handler releases
the lock — the final state has the mutex unlocked, the counter incremented
and the response written — but the release is a plain statement, not a
scoped or deferred one, so an execution that terminates abnormally between
the acquisition and the release leaves the mutex held.  (The critical
section is only an increment and a read of a valid pointer, which cannot
panic, so no such execution arises in practice.) -/
theorem mutex_released_on_normal_run (v : Nat) :
    muRun visitWithMutexProgram (MuState.mk false v none none) =
      some (MuState.mk false ((v + 1) % uint64Mod) (some ((v + 1) % uint64Mod))
        (some ⟨200, visitMessage ((v + 1) % uint64Mod)⟩)) ∧
    visitWithMutexDeferred = [] :=
  ⟨rfl, rfl⟩

/-- C6 counterexample: an execution that panics right after the increment
(two statements in, inside the critical section) runs the empty deferred
list and ends with the mutex still held — the lock is not released on
abnormal termination, contradicting the guaranteed-release claim. -/
theorem mutex_held_after_panic :
    muPanicAt 2 (MuState.mk false 0 none none) =
      some (MuState.mk true 1 none none) ∧
    ¬ (muPanicAt 2 (MuState.mk false 0 none none)).map MuState.locked = some false := by
  exact ⟨rfl, by decide⟩

/-- The statements of the visitWithChannel handler body, in source order
(main.go lines 73-78): receive the reference, increment through it, format
the message (line 75 reads the referenced value), send the reference back,
write the response. -/
inductive ChanOp
  | recvToken
  | incrVisits
  | formatMsg
  | sendToken
  | writeResponse
deriving DecidableEq, Repr

/-- State seen by the channel handler: the number of tokens in the one-slot
channel, the shared counter the token references, whether this call holds
the reference, the message built so far, and the response written. -/
structure ChanHState where
  chanTokens : Nat
  visits : Nat
  holding : Bool
  message : Option String
  response : Option Response
deriving DecidableEq, Repr

/-- One statement of the channel handler.  A receive from an empty channel
and a send to a full one-slot channel block, which we model as none. -/
def chanOpStep : ChanOp → ChanHState → Option ChanHState
  | .recvToken, s =>
      if 1 ≤ s.chanTokens then
        some { s with chanTokens := s.chanTokens - 1, holding := true }
      else none
  | .incrVisits, s => some { s with visits := (s.visits + 1) % uint64Mod }
  | .formatMsg, s => some { s with message := some (visitMessage s.visits) }
  | .sendToken, s =>
      if s.chanTokens < 1 then
        some { s with chanTokens := s.chanTokens + 1, holding := false }
      else none
  | .writeResponse, s => some { s with response := s.message.map (Response.mk 200) }

/-- Run a list of channel-handler statements in order. -/
def chanRun : List ChanOp → ChanHState → Option ChanHState
  | [], s => some s
  | op :: rest, s => (chanOpStep op s).bind (chanRun rest)

/-- The visitWithChannel handler body as its statement list (main.go 73-78). -/
def visitWithChannelProgram : List ChanOp :=
  [.recvToken, .incrVisits, .formatMsg, .sendToken, .writeResponse]

/-- C5: in the channel handler the receive comes before the increment, the
increment before the send, and the response is written only after the send;
the service construction seeds the channel with exactly one token before any
request is served; from that seeded state every call runs to completion,
increments the counter once, and returns the single token to the channel,
while from an unseeded channel the first statement blocks forever. -/
theorem channel_protocol (v : Nat) :
    (visitWithChannelProgram.indexOf ChanOp.recvToken <
        visitWithChannelProgram.indexOf ChanOp.incrVisits ∧
      visitWithChannelProgram.indexOf ChanOp.incrVisits <
        visitWithChannelProgram.indexOf ChanOp.sendToken ∧
      visitWithChannelProgram.indexOf ChanOp.sendToken <
        visitWithChannelProgram.indexOf ChanOp.writeResponse) ∧
    mainInit.chanTokens = 1 ∧
    chanRun visitWithChannelProgram (ChanHState.mk 1 v false none none) =
      some (ChanHState.mk 1 ((v + 1) % uint64Mod) false
        (some (visitMessage ((v + 1) % uint64Mod)))
        (some ⟨200, visitMessage ((v + 1) % uint64Mod)⟩)) ∧
    chanRun visitWithChannelProgram (ChanHState.mk 0 v false none none) = none :=
  ⟨⟨by decide, by decide, by decide⟩, rfl, rfl, rfl⟩

/-- The atomic endpoint acting on the same shared counter while the channel
handler is mid-flight: main.go line 31 hands the atomic handler the address
of the very variable the channel token references, and atomic.AddUint64
needs no channel token, so this step can interleave anywhere. -/
def atomicInterleaved (s : ChanHState) : ChanHState :=
  { s with visits := (s.visits + 1) % uint64Mod }

/-- The visitWithAtomic handler body (main.go lines 63-67) with a concurrent
modification g of the shared counter landing after its AddUint64 returned:
the first component is the shared counter at write time, the second the
message the handler writes, which uses only the saved scalar current. -/
def visitWithAtomicUnder (visits : Nat) (g : Nat → Nat) : Nat × String :=
  let current := (visits + 1) % uint64Mod
  let sharedNow := g current
  (sharedNow, visitMessage current)

/-- C10 (amended): the formatting of the mutex and atomic handlers reads
only the scalar current saved by that call, so a modification of the shared
counter after the increment completes leaves their message unchanged; the
channel handler instead formats from the shared counter itself (main.go
line 75 reads through the reference), so a modification landing between its
increment and its formatting — possible in the deployed wiring through the
atomic endpoint, which bypasses the channel token — changes its message. -/
theorem format_scalar_vs_shared (v : Nat) :
    ((muRun [MuOp.lock, MuOp.incrVisits, MuOp.readCurrent, MuOp.unlock]
          (MuState.mk false v none none)).bind
        (fun s => muRun [MuOp.formatAndWrite]
          (MuState.mk s.locked ((s.visits + 1) % uint64Mod) s.current s.response)) =
      some (MuState.mk false (((v + 1) % uint64Mod + 1) % uint64Mod)
        (some ((v + 1) % uint64Mod))
        (some ⟨200, visitMessage ((v + 1) % uint64Mod)⟩))) ∧
    (∀ g : Nat → Nat,
      (visitWithAtomicUnder v g).2 = visitMessage ((visitWithAtomicIncr v).2)) ∧
    ((chanRun [ChanOp.recvToken, ChanOp.incrVisits]
          (ChanHState.mk 1 v false none none)).bind
        (fun s => chanRun [ChanOp.formatMsg, ChanOp.sendToken, ChanOp.writeResponse]
          (atomicInterleaved s)) =
      some (ChanHState.mk 1 (((v + 1) % uint64Mod + 1) % uint64Mod) false
        (some (visitMessage (((v + 1) % uint64Mod + 1) % uint64Mod)))
        (some ⟨200, visitMessage (((v + 1) % uint64Mod + 1) % uint64Mod)⟩))) :=
  ⟨rfl, fun _ => rfl, rfl⟩

/-- C10 counterexample: with the counter at 0, the channel handler receives
the token and increments (its call produced the count 1), the atomic
endpoint then bumps the shared counter, and the channel handler formats and
writes a message embedding 2 — the formatted message is not the message of
the count this call produced, so the formatting did read the shared mutable
state. -/
theorem channel_message_interference :
    ((chanRun [ChanOp.recvToken, ChanOp.incrVisits]
          (ChanHState.mk 1 0 false none none)).bind
        (fun s => chanRun [ChanOp.formatMsg, ChanOp.sendToken, ChanOp.writeResponse]
          (atomicInterleaved s))).map ChanHState.response =
      some (some ⟨200, visitMessage 2⟩) ∧
    visitMessage 2 ≠ visitMessage 1 := by
  exact ⟨rfl, by decide⟩

/-- A deployed channel-handler call with a concurrent modification g of the
shared counter landing between its increment (main.go line 74) and its
formatting (line 75): the receive and the increment run, the shared counter
then changes from the value the increment produced to g of it — in the
deployed wiring the atomic endpoint can do this, since main.go line 31
hands it the same variable and AddUint64 needs no channel token — and the
handler then formats, sends and writes. -/
def chanRunWithInterference (g : Nat → Nat) (v : Nat) : Option ChanHState :=
  (chanRun [ChanOp.recvToken, ChanOp.incrVisits]
      (ChanHState.mk 1 v false none none)).bind
    (fun s => chanRun [ChanOp.formatMsg, ChanOp.sendToken, ChanOp.writeResponse]
      { s with visits := g s.visits })

/-- C4 (amended): for every successful call of the mutex or atomic handler
the response status is 200 and the body is exactly the template string with
the decimal rendering of the value that call's increment produced; the same
holds for a channel-handler call provided the shared counter is not
modified between its increment and its formatting, the condition being
necessary because the channel handler formats from the shared counter
itself. -/
theorem response_embeds_increment (v : Nat) (g : Nat → Nat)
    (hg : g ((v + 1) % uint64Mod) = (v + 1) % uint64Mod) :
    ((visitWithMutex v).2.status = 200 ∧
      (visitWithMutex v).2.body =
        "Olá! Você teve " ++ toString (visitWithMutexIncr v).2 ++ " visitas.") ∧
    ((visitWithAtomic v).2.status = 200 ∧
      (visitWithAtomic v).2.body =
        "Olá! Você teve " ++ toString (visitWithAtomicIncr v).2 ++ " visitas.") ∧
    (chanRunWithInterference g v).map ChanHState.response =
      some (some ⟨200,
        "Olá! Você teve " ++ toString (visitWithChannelIncr v).2 ++ " visitas."⟩) := by
  refine ⟨⟨rfl, rfl⟩, ⟨rfl, rfl⟩, ?_⟩
  have h1 : chanRunWithInterference g v =
      chanRun [ChanOp.formatMsg, ChanOp.sendToken, ChanOp.writeResponse]
        (ChanHState.mk 0 (g ((v + 1) % uint64Mod)) true none none) := rfl
  rw [h1, hg]
  rfl

/-- C4 amended witness: with the counter at 0 and no interference, all
three handlers reply 200 with the body embedding the value 1 their
increment produced. -/
theorem response_embeds_increment_at_0 :
    (fun n : Nat => n) ((0 + 1) % uint64Mod) = (0 + 1) % uint64Mod ∧
    (visitWithMutex 0).2.body =
      "Olá! Você teve " ++ toString (visitWithMutexIncr 0).2 ++ " visitas." ∧
    (chanRunWithInterference (fun n => n) 0).map ChanHState.response =
      some (some ⟨200,
        "Olá! Você teve " ++ toString (visitWithChannelIncr 0).2 ++ " visitas."⟩) :=
  ⟨rfl, (response_embeds_increment 0 (fun n => n) rfl).1.2,
    (response_embeds_increment 0 (fun n => n) rfl).2.2⟩

/-- C4 counterexample: a successful deployed channel call whose increment
produced the count 1 (the shared counter holds 1 right after its increment
statement) writes, after an atomic-endpoint call interleaves, the body
embedding 2 — the response body is not the message of the value returned by
that call's increment operation. -/
theorem channel_body_vs_increment :
    (chanRun [ChanOp.recvToken, ChanOp.incrVisits]
        (ChanHState.mk 1 0 false none none)).map ChanHState.visits = some 1 ∧
    (chanRunWithInterference (fun n => (n + 1) % uint64Mod) 0).map
        ChanHState.response = some (some ⟨200, "Olá! Você teve 2 visitas."⟩) ∧
    "Olá! Você teve 2 visitas." ≠ visitMessage 1 := by
  exact ⟨rfl, by decide, by decide⟩

/-- C2 counterexample: in the deployed service all three visit endpoints
share the one visits variable.  From the initial state, one call of the
mutex endpoint changes the stored counter from 0 to 1, and the next call of
the atomic endpoint replies with the count 2 instead of the count 1 it
would reply with were its counter untouched by the mutex endpoint. -/
theorem strategies_share_counter :
    (mainVisitWithMutex mainInit).1.visits = 1 ∧
    mainInit.visits = 0 ∧
    (mainVisitWithAtomic (mainVisitWithMutex mainInit).1).2 =
      ⟨200, visitMessage 2⟩ ∧
    (mainVisitWithAtomic mainInit).2 = ⟨200, visitMessage 1⟩ ∧
    visitMessage 2 ≠ visitMessage 1 := by
  refine ⟨rfl, rfl, rfl, rfl, by decide⟩

/-- C2 (amended): main wires the single shared visits variable into every
visit endpoint, so each endpoint stores the incremented shared value and a
call of any one strategy changes the value observed by the other two. -/
theorem single_shared_counter (s : MainState) (hv : s.visits < uint64Mod) :
    (mainVisitWithMutex s).1.visits = (s.visits + 1) % uint64Mod ∧
    (mainVisitWithAtomic s).1.visits = (s.visits + 1) % uint64Mod ∧
    (1 ≤ s.chanTokens →
      (mainVisitWithChannel s).map (fun t => t.1.visits) =
        some ((s.visits + 1) % uint64Mod)) ∧
    (mainVisitWithMutex s).1.visits ≠ s.visits := by
  refine ⟨rfl, rfl, ?_, ?_⟩
  · intro h
    simp [mainVisitWithChannel, h, visitWithChannelIncr]
  · show (s.visits + 1) % uint64Mod ≠ s.visits
    have h0 := mod_succ_ne s.visits
    rwa [Nat.mod_eq_of_lt hv] at h0

/-- C2 amended witness: at the initial service state the three endpoints
all store the value 1 and the mutex call changes the shared counter. -/
theorem single_shared_counter_at_init :
    mainInit.visits < uint64Mod ∧
    (mainVisitWithMutex mainInit).1.visits = (mainInit.visits + 1) % uint64Mod ∧
    (mainVisitWithMutex mainInit).1.visits ≠ mainInit.visits :=
  ⟨by decide, (single_shared_counter mainInit (by decide)).1,
    (single_shared_counter mainInit (by decide)).2.2.2⟩

end Synchro
